import Mathlib

/-!
Shallow embedding of `src/extract_poses.py` (gavingavinchan/nerfstudio).

The script reads a Nerfstudio `transforms.json`, sorts its frame records by
`file_path`, and for each frame extracts an ordinal from the path, derives a
timestamp from the ordinal and the video frame rate, left-multiplies the 4x4
camera-to-world matrix by the constant `CV_TO_ROS_FRAME`, and emits a stamped
pose (position = translation column, orientation = quaternion of the rotation
block via scipy's `Rotation.from_matrix(...).as_quat()`).

Numbers: Python floats are modelled by exact rationals `ℚ` (all concrete values
appearing in the claims are exactly representable, and the claim-level
arithmetic — floor splits, divisions by the frame rate — coincides with the
float computation on those values). `divmod(x, 1)` is `(⌊x⌋, x - ⌊x⌋)` and
`int(y)` on a non-negative `y` is `⌊y⌋`. Python exceptions are modelled with
`Option` (caught per-record) and `Except` (uncaught, aborting the process).
-/

namespace ExtractPoses

abbrev Mat4 := Matrix (Fin 4) (Fin 4) ℚ
abbrev Mat3 := Matrix (Fin 3) (Fin 3) ℚ

/-- The constant `CV_TO_ROS_FRAME` from the source (lines 68-73): converts a
point from OpenCV convention (+X right, +Y down, +Z forward) to ROS convention
(+X forward, +Y left, +Z up). -/
def CV_TO_ROS_FRAME : Mat4 :=
  !![0, 0, 1, 0;
     -1, 0, 0, 0;
     0, -1, 0, 0;
     0, 0, 0, 1]

/-- Longest run of decimal digits at the front of a character list; this is
what `\d+` greedily captures right after the marker. -/
def leadingDigits : List Char → List Char
  | [] => []
  | c :: cs => if c.isDigit then c :: leadingDigits cs else []

/-- Value of a digit string, as `int()` reads the captured group. -/
def digitsToNat (ds : List Char) : Nat :=
  ds.foldl (fun acc c => 10 * acc + (c.toNat - 48)) 0

/-- Tries to match the regex `frame_(\d+)` anchored at the head of the list:
the literal marker `frame_` must be followed by at least one digit. -/
def frameMarkerAt : List Char → Option Nat
  | 'f' :: 'r' :: 'a' :: 'm' :: 'e' :: '_' :: rest =>
    match leadingDigits rest with
    | [] => none
    | ds => some (digitsToNat ds)
  | _ => none

/-- Leftmost match of `frame_(\d+)`, as `re.search` finds it: try each start
position left to right. -/
def searchFrameNumber : List Char → Option Nat
  | [] => none
  | c :: cs =>
    match frameMarkerAt (c :: cs) with
    | some n => some n
    | none => searchFrameNumber cs

/-- `extract_frame_number` (source lines 33-38). `none` models the raised
`ValueError` when no `frame_<digits>` marker is present. -/
def extract_frame_number (file_path : String) : Option Nat :=
  searchFrameNumber file_path.data

/-- The parsing core of `get_video_fps` (source lines 26-27): ffprobe reports a
rational `num/den`; the function returns `num / den if den != 0 else 0`. The
subprocess plumbing and the fatal error paths around it are I/O and are not
modelled. -/
def get_video_fps (num den : ℤ) : ℚ :=
  if den ≠ 0 then (num : ℚ) / (den : ℚ) else 0

/-- One record of the `frames` list of `transforms.json`. Both JSON keys may be
absent, hence the `Option`s. -/
structure Frame where
  file_path : Option String
  transform_matrix : Option Mat4

/-- ROS header stamp: whole seconds and nanoseconds. -/
structure Stamp where
  sec : ℤ
  nanosec : ℤ
deriving DecidableEq

/-- The emitted pose record (source lines 105-114). `quatRaw` is the
pre-normalization quaternion `(x, y, z, w)` that scipy's `from_matrix`
computes; the float quaternion actually written is `quatRaw` divided by its
Euclidean norm, which is stated with `Real.sqrt` in the theorems that need
the normalized components. -/
structure StampedPose where
  stamp : Stamp
  frame_id : String
  position : Fin 3 → ℚ
  quatRaw : Fin 4 → ℚ

/-- Timestamp derivation (source lines 93-96):
`timestamp_sec_float = (frame_number - 1) / fps if fps > 0 else 0`, then
`divmod(·, 1)` and `int(frac * 1e9)`. -/
def timestampOf (frame_number : ℕ) (fps : ℚ) : Stamp :=
  let timestamp_sec_float : ℚ := if fps > 0 then ((frame_number : ℚ) - 1) / fps else 0
  let ts_sec : ℤ := ⌊timestamp_sec_float⌋
  let ts_nanosec_float : ℚ := timestamp_sec_float - (ts_sec : ℚ)
  ⟨ts_sec, ⌊ts_nanosec_float * 1000000000⌋⟩

/-- Top-left 3x3 rotation block of a 4x4 homogeneous matrix. -/
def rotBlock (m : Mat4) : Mat3 :=
  Matrix.of fun i j => m i.castSucc j.castSucc

/-- Index of the first maximum among four values, as `np.argmax` computes it
(a later index wins only when strictly greater). -/
def argmax4 (d0 d1 d2 d3 : ℚ) : ℕ :=
  let i1 := if d1 > d0 then 1 else 0
  let v1 := if d1 > d0 then d1 else d0
  let i2 := if d2 > v1 then 2 else i1
  let v2 := if d2 > v1 then d2 else v1
  if d3 > v2 then 3 else i2

/-- scipy `Rotation.from_matrix` (Shepperd-style branch on
`argmax [m00, m11, m22, trace]`), before the final normalization; components
ordered `(x, y, z, w)` as `as_quat` returns them. -/
def from_matrix_raw (m : Mat3) : Fin 4 → ℚ :=
  let t := m 0 0 + m 1 1 + m 2 2
  let choice := argmax4 (m 0 0) (m 1 1) (m 2 2) t
  if choice = 0 then ![1 - t + 2 * m 0 0, m 1 0 + m 0 1, m 2 0 + m 0 2, m 2 1 - m 1 2]
  else if choice = 1 then ![m 0 1 + m 1 0, 1 - t + 2 * m 1 1, m 2 1 + m 1 2, m 0 2 - m 2 0]
  else if choice = 2 then ![m 0 2 + m 2 0, m 1 2 + m 2 1, 1 - t + 2 * m 2 2, m 1 0 - m 0 1]
  else ![m 2 1 - m 1 2, m 0 2 - m 2 0, m 1 0 - m 0 1, 1 + t]

/-- Squared Euclidean norm of a quaternion, the quantity whose square root
scipy divides by when normalizing. -/
def quatNormSq (q : Fin 4 → ℚ) : ℚ :=
  q 0 ^ 2 + q 1 ^ 2 + q 2 ^ 2 + q 3 ^ 2

/-- The body of the per-frame `try:` block (source lines 91-119). Any
`ValueError`/`KeyError` inside it — missing `file_path` or `transform_matrix`
key, or a failed ordinal extraction — is caught and yields `none` (the frame is
skipped with a diagnostic). -/
def processFrame (fps : ℚ) (frame_id : String) (frame : Frame) : Option StampedPose := do
  let fp ← frame.file_path
  let frame_number ← extract_frame_number fp
  let stamp := timestampOf frame_number fps
  let c2w_colmap ← frame.transform_matrix
  let c2w_ros := CV_TO_ROS_FRAME * c2w_colmap
  let position : Fin 3 → ℚ := fun i => c2w_ros i.castSucc 3
  let quat := from_matrix_raw (rotBlock c2w_ros)
  some ⟨stamp, frame_id, position, quat⟩

/-- Uncaught Python exceptions that abort the run. -/
inductive PyErr where
  | keyError
deriving DecidableEq

/-- Sort key `lambda f: f['file_path']` (source line 90); `""` is never
consulted: the key is only used after every `file_path` is known present. -/
def filePathKey (f : Frame) : String :=
  f.file_path.getD ""

/-- Order on frames induced by the sort key: plain lexicographic string
comparison, exactly Python's `str` ordering by code points. -/
def frameLe (a b : Frame) : Prop :=
  filePathKey a ≤ filePathKey b

instance : DecidableRel frameLe :=
  fun a b => inferInstanceAs (Decidable (filePathKey a ≤ filePathKey b))

/-- The `sorted(frames, key=lambda f: f['file_path'])` call (source line 90).
`sorted` evaluates the key on every element before producing the sorted list,
so a single record without a `file_path` key raises an uncaught `KeyError`,
outside any `try:` — this aborts before any frame is processed. A stable
insertion sort matches Python's stable sort. -/
def sortByFilePath (frames : List Frame) : Except PyErr (List Frame) :=
  if frames.all (fun f => f.file_path.isSome) then
    .ok (frames.insertionSort frameLe)
  else
    .error PyErr.keyError

/-- The observable outcome of a run that did not abort. -/
structure RunOutput where
  poses : List StampedPose
  skipped : ℕ
  warnedEmpty : Bool
  outputWritten : Bool
  exitCode : ℕ

/-- The `transforms.json` content, as far as `main` reads it:
`transforms_data.get("frames", [])` — the `frames` key may be absent. -/
structure TransformsData where
  frames : Option (List Frame)

/-- The frame-processing part of `main` (source lines 88-141), after the
fatal-error preludes (missing `transforms.json`, ffprobe failure) have
succeeded. Sorts the frame list, processes each record with per-record error
skipping, then either warns and exits 0 with no output file (zero poses) or
writes the YAML file and exits 0. `skipped` counts the per-record diagnostics
printed; an `Except.error` models an uncaught exception (non-zero exit, no
output). -/
def buildOutput (sortedFrames : List Frame) (fps : ℚ) (frame_id : String) : RunOutput :=
  if (sortedFrames.filterMap (processFrame fps frame_id)).isEmpty then
    ⟨sortedFrames.filterMap (processFrame fps frame_id),
      sortedFrames.length - (sortedFrames.filterMap (processFrame fps frame_id)).length,
      true, false, 0⟩
  else
    ⟨sortedFrames.filterMap (processFrame fps frame_id),
      sortedFrames.length - (sortedFrames.filterMap (processFrame fps frame_id)).length,
      false, true, 0⟩

/-- Composition of the sort (which may raise) with the processing loop and the
final empty/non-empty branch. -/
def runMain (td : TransformsData) (fps : ℚ) (frame_id : String) : Except PyErr RunOutput :=
  (sortByFilePath (td.frames.getD [])).map (fun sortedFrames => buildOutput sortedFrames fps frame_id)

/-- The emitted poses of a run paired with the `file_path` of the frame each
was derived from, in emission order (used to state the ordering claim; the
script itself does not retain the source path in the output record). -/
def emittedWithSources (td : TransformsData) (fps : ℚ) (fid : String) :
    List (String × StampedPose) :=
  ((td.frames.getD []).insertionSort frameLe).filterMap
    (fun f => (processFrame fps fid f).map (fun p => (filePathKey f, p)))

/-- Normalized quaternion actually serialized: scipy divides the raw Shepperd
quaternion by its Euclidean norm before `as_quat` returns it. -/
noncomputable def quatN (p : StampedPose) : Fin 4 → ℝ :=
  fun i => ((p.quatRaw i : ℚ) : ℝ) / Real.sqrt ((quatNormSq p.quatRaw : ℚ) : ℝ)

instance : IsTotal Frame frameLe :=
  ⟨fun a b => le_total (filePathKey a) (filePathKey b)⟩

instance : IsTrans Frame frameLe :=
  ⟨fun _ _ _ hab hbc => le_trans hab hbc⟩

/-- A frame record with an identity camera-to-world matrix (the shape used by
the spec's concrete example and the witnesses below). -/
def idFrame (s : String) : Frame :=
  ⟨some s, some 1⟩

/-- The pose that an identity-matrix frame produces: zero translation and the
raw quaternion `(1, -1, 1, -1)` of the axis-convention rotation. -/
def idPose (st : Stamp) (fid : String) : StampedPose :=
  ⟨st, fid, fun _ => 0, ![1, -1, 1, -1]⟩

section Helpers

/-- Rotation block of the axis-convention constant, as an explicit literal. -/
lemma rotBlock_CV : rotBlock CV_TO_ROS_FRAME = !![0,0,1; -1,0,0; 0,-1,0] := by
  ext i j
  fin_cases i <;> fin_cases j <;> norm_num [rotBlock, CV_TO_ROS_FRAME]

/-- Raw scipy quaternion of the axis-convention rotation block: the decision
values `[m00, m11, m22, trace]` are all `0`, `argmax` picks branch `0`, giving
`(1, -1, 1, -1)` before normalization. -/
lemma from_matrix_raw_CV : from_matrix_raw !![0,0,1; -1,0,0; 0,-1,0] = ![1, -1, 1, -1] := by
  funext i
  fin_cases i <;> norm_num [from_matrix_raw, argmax4, Matrix.vecHead, Matrix.vecTail]

/-- The translation column of the axis-convention constant is zero. -/
lemma CV_pos_col : (fun i : Fin 3 => CV_TO_ROS_FRAME i.castSucc 3) = fun _ => 0 := by
  funext i
  fin_cases i <;> norm_num [CV_TO_ROS_FRAME, Fin.castSucc, Fin.castAdd, Fin.castLE]

/-- Processing a frame whose matrix is the 4x4 identity. -/
lemma processFrame_idm (fps : ℚ) (fid s : String) (n : ℕ)
    (hn : extract_frame_number s = some n) :
    processFrame fps fid (idFrame s) = some (idPose (timestampOf n fps) fid) := by
  simp only [processFrame, idFrame, idPose, Option.pure_def, Option.bind_eq_bind,
    Option.some_bind, hn, mul_one, rotBlock_CV, from_matrix_raw_CV, CV_pos_col,
    Option.some.injEq, StampedPose.mk.injEq, true_and, and_true, and_self]

/-- A frame that fails ordinal extraction is skipped. -/
lemma processFrame_badmarker (fps : ℚ) (fid : String) (fr : Frame) (s : String)
    (hs : fr.file_path = some s) (hn : extract_frame_number s = none) :
    processFrame fps fid fr = none := by
  simp [processFrame, hs, hn]

/-- A frame whose record lacks the `transform_matrix` key is skipped. -/
lemma processFrame_nomatrix (fps : ℚ) (fid s : String) :
    processFrame fps fid ⟨some s, none⟩ = none := by
  cases hn : extract_frame_number s <;> simp [processFrame, hn]

/-- Inversion: a surviving frame has a present `file_path` with an extractable
ordinal and a present matrix, and its stamp is `timestampOf` of that ordinal. -/
lemma processFrame_inv {fps : ℚ} {fid : String} {fr : Frame} {p : StampedPose}
    (h : processFrame fps fid fr = some p) :
    ∃ s n m, fr.file_path = some s ∧ extract_frame_number s = some n ∧
      fr.transform_matrix = some m ∧ p.stamp = timestampOf n fps := by
  obtain ⟨fp0, m0⟩ := fr
  cases fp0 with
  | none => simp [processFrame] at h
  | some s =>
    cases hn : extract_frame_number s with
    | none => simp [processFrame, hn] at h
    | some n =>
      cases m0 with
      | none => simp [processFrame, hn] at h
      | some m =>
        refine ⟨s, n, m, rfl, hn, rfl, ?_⟩
        simp only [processFrame, Option.pure_def, Option.bind_eq_bind, Option.some_bind, hn,
          Option.some.injEq] at h
        rw [← h]

/-- When every frame record has a `file_path` key, the run reaches the
processing loop. -/
lemma runMain_of_keys {td : TransformsData} {fps : ℚ} {fid : String}
    (hall : (td.frames.getD []).all (fun f => f.file_path.isSome) = true) :
    runMain td fps fid =
      Except.ok (buildOutput ((td.frames.getD []).insertionSort frameLe) fps fid) := by
  unfold runMain sortByFilePath
  rw [if_pos hall]
  rfl

/-- A frame record without a `file_path` key makes the sort raise `KeyError`. -/
lemma runMain_error_of_badkey {td : TransformsData} {fps : ℚ} {fid : String}
    (hall : ¬ ((td.frames.getD []).all (fun f => f.file_path.isSome) = true)) :
    runMain td fps fid = Except.error PyErr.keyError := by
  unfold runMain sortByFilePath
  rw [if_neg hall]
  rfl

/-- Inversion of a non-aborting run: the poses are the filterMap over the
sorted frames, `skipped` counts the dropped records, and the exit code is 0. -/
lemma runMain_ok_inv {td : TransformsData} {fps : ℚ} {fid : String} {r : RunOutput}
    (h : runMain td fps fid = Except.ok r) :
    r.poses = ((td.frames.getD []).insertionSort frameLe).filterMap (processFrame fps fid) ∧
    r.skipped = ((td.frames.getD []).insertionSort frameLe).length - r.poses.length ∧
    r.exitCode = 0 := by
  by_cases hall : (td.frames.getD []).all (fun f => f.file_path.isSome) = true
  · rw [runMain_of_keys hall, Except.ok.injEq] at h
    unfold buildOutput at h
    split at h <;> rw [← h]
    · exact ⟨rfl, rfl, rfl⟩
    · exact ⟨rfl, rfl, rfl⟩
  · rw [runMain_error_of_badkey hall] at h
    cases h

/-- Every emitted pose is produced by `processFrame` from a frame of the
input list. -/
lemma mem_poses_inv {td : TransformsData} {fps : ℚ} {fid : String} {r : RunOutput}
    (h : runMain td fps fid = Except.ok r) {p : StampedPose} (hp : p ∈ r.poses) :
    ∃ fr ∈ td.frames.getD [], processFrame fps fid fr = some p := by
  rw [(runMain_ok_inv h).1] at hp
  rcases List.mem_filterMap.mp hp with ⟨fr, hfr, hpf⟩
  exact ⟨fr, (List.perm_insertionSort frameLe _).mem_iff.mp hfr, hpf⟩

/-- Projecting the source-annotated emission list back to the plain pose
list. -/
lemma map_snd_emitted (fps : ℚ) (fid : String) (l : List Frame) :
    (l.filterMap (fun f => (processFrame fps fid f).map
        (fun p => (filePathKey f, p)))).map Prod.snd
      = l.filterMap (processFrame fps fid) := by
  induction l with
  | nil => rfl
  | cons a l ih =>
    cases hg : processFrame fps fid a <;> simp [List.filterMap_cons, hg, ih]

/-- Nanoseconds are always in `[0, 1e9)`: the fractional part of the divmod
split lies in `[0, 1)`. -/
lemma timestampOf_nanosec_bounds (n : ℕ) (fps : ℚ) :
    0 ≤ (timestampOf n fps).nanosec ∧ (timestampOf n fps).nanosec < 1000000000 := by
  unfold timestampOf
  set e : ℚ := if fps > 0 then ((n : ℚ) - 1) / fps else 0 with he
  constructor
  · exact Int.floor_nonneg.mpr
      (mul_nonneg (by linarith [Int.floor_le e]) (by norm_num))
  · refine Int.floor_lt.mpr ?_
    push_cast
    have h1 : e - (⌊e⌋ : ℚ) < 1 := by linarith [Int.lt_floor_add_one e]
    nlinarith

/-- For a 1-indexed ordinal the whole-seconds part is non-negative. -/
lemma timestampOf_sec_nonneg (n : ℕ) (fps : ℚ) (hn : 1 ≤ n) :
    0 ≤ (timestampOf n fps).sec := by
  unfold timestampOf
  refine Int.floor_nonneg.mpr ?_
  by_cases hf : fps > 0
  · rw [if_pos hf]
    have h1 : (1 : ℚ) ≤ (n : ℚ) := by exact_mod_cast hn
    exact div_nonneg (by linarith) (le_of_lt hf)
  · rw [if_neg hf]

/-- Frame rate 0 stamps every frame at time (0, 0). -/
lemma timestampOf_zero_fps (n : ℕ) : timestampOf n 0 = ⟨0, 0⟩ := by
  norm_num [timestampOf]

/-- Evaluation of a run on a single identity-matrix frame. -/
lemma runMain_single (s : String) (n : ℕ) (fps : ℚ) (fid : String)
    (hn : extract_frame_number s = some n) :
    runMain ⟨some [idFrame s]⟩ fps fid =
      Except.ok ⟨[idPose (timestampOf n fps) fid], 0, false, true, 0⟩ := by
  have hpf := processFrame_idm fps fid s n hn
  simp only [idFrame] at hpf
  simp [runMain, sortByFilePath, List.insertionSort, Except.map, buildOutput, idFrame, hpf]

/-- Poses of `buildOutput` are the filterMap over its input, in both
branches. -/
lemma buildOutput_poses (l : List Frame) (fps : ℚ) (fid : String) :
    (buildOutput l fps fid).poses = l.filterMap (processFrame fps fid) := by
  unfold buildOutput
  split <;> rfl

/-- Skip count of `buildOutput`, in both branches. -/
lemma buildOutput_skipped (l : List Frame) (fps : ℚ) (fid : String) :
    (buildOutput l fps fid).skipped =
      l.length - (l.filterMap (processFrame fps fid)).length := by
  unfold buildOutput
  split <;> rfl

/-- Stamp projection of `idPose`. -/
lemma idPose_stamp (st : Stamp) (fid : String) : (idPose st fid).stamp = st := rfl

/-- Position projection of `idPose`. -/
lemma idPose_position (st : Stamp) (fid : String) :
    (idPose st fid).position = fun _ => 0 := rfl

/-- Normalized quaternion of the pose an identity-matrix frame produces:
the raw quaternion is `(1, -1, 1, -1)`, its norm is `2`. -/
lemma quatN_idPose (st : Stamp) (fid : String) :
    quatN (idPose st fid) = ![1/2, -1/2, 1/2, -1/2] := by
  have h4 : ((quatNormSq ![(1 : ℚ), -1, 1, -1] : ℚ) : ℝ) = 4 := by
    norm_num [quatNormSq]
  have hs : Real.sqrt ((quatNormSq ![(1 : ℚ), -1, 1, -1] : ℚ) : ℝ) = 2 := by
    rw [h4, show (4 : ℝ) = 2 ^ 2 by norm_num, Real.sqrt_sq (by norm_num : (0:ℝ) ≤ 2)]
  funext i
  fin_cases i <;> simp [quatN, idPose, hs]

end Helpers

/-- C10: a reconstruction descriptor without a `frames` key is handled exactly
like an empty frame list: warning emitted, no output file written, exit
status 0. -/
theorem C10_missing_frames_key (fps : ℚ) (fid : String) :
    runMain ⟨none⟩ fps fid = Except.ok ⟨[], 0, true, false, 0⟩ ∧
    runMain ⟨none⟩ fps fid = runMain ⟨some []⟩ fps fid :=
  ⟨rfl, rfl⟩

/-- C7: when every frame is skipped, the run produces zero poses, writes no
output file, and exits with status 0 (after a warning). -/
theorem C7_empty_result (td : TransformsData) (fps : ℚ) (fid : String)
    (hkeys : (td.frames.getD []).all (fun f => f.file_path.isSome) = true)
    (hnone : ∀ f ∈ td.frames.getD [], processFrame fps fid f = none) :
    runMain td fps fid = Except.ok ⟨[], (td.frames.getD []).length, true, false, 0⟩ := by
  rw [runMain_of_keys hkeys]
  have hfm : ((td.frames.getD []).insertionSort frameLe).filterMap (processFrame fps fid) = [] :=
    List.filterMap_eq_nil_iff.mpr (fun a ha =>
      hnone a ((List.perm_insertionSort frameLe _).mem_iff.mp ha))
  unfold buildOutput
  rw [hfm]
  simp [List.length_insertionSort]

/-- Witness for C7: an all-malformed single-frame list yields the empty,
exit-0, no-output outcome. -/
theorem C7_witness :
    ((⟨some [⟨some "images/oops.png", some 1⟩]⟩ :
        TransformsData).frames.getD []).all (fun f => f.file_path.isSome) = true ∧
    runMain ⟨some [⟨some "images/oops.png", some 1⟩]⟩ 30 "map" =
      Except.ok ⟨[], 1, true, false, 0⟩ := by
  have hmal : extract_frame_number "images/oops.png" = none := by decide
  have hnone : ∀ f ∈ ((⟨some [⟨some "images/oops.png", some 1⟩]⟩ :
      TransformsData).frames.getD []), processFrame 30 "map" f = none := by
    intro f hf
    simp only [Option.getD, List.mem_singleton] at hf
    subst hf
    exact processFrame_badmarker 30 "map" _ "images/oops.png" rfl hmal
  exact ⟨rfl, C7_empty_result _ 30 "map" rfl hnone⟩

/-- C9: a frame record with no `file_path` key aborts the whole run with an
uncaught `KeyError` raised by the sort, before any frame is processed and
before any output exists — while a record that merely lacks
`transform_matrix` is skipped per-record (second conjunct). -/
theorem C9_missing_path_aborts (td : TransformsData) (fps : ℚ) (fid : String)
    (f : Frame) (hf : f ∈ td.frames.getD []) (hfp : f.file_path = none) :
    runMain td fps fid = Except.error PyErr.keyError ∧
    ∀ s : String, processFrame fps fid ⟨some s, none⟩ = none := by
  refine ⟨?_, fun s => processFrame_nomatrix fps fid s⟩
  apply runMain_error_of_badkey
  intro hall
  have hsome := List.all_eq_true.mp hall f hf
  rw [hfp] at hsome
  simp at hsome

/-- Witness for C9: a concrete list whose only record has no `file_path`
key. -/
theorem C9_witness :
    (⟨none, some 1⟩ : Frame) ∈
        ((⟨some [⟨none, some 1⟩]⟩ : TransformsData).frames.getD []) ∧
    runMain ⟨some [⟨none, some 1⟩]⟩ 30 "map" = Except.error PyErr.keyError := by
  have h := C9_missing_path_aborts ⟨some [⟨none, some 1⟩]⟩ 30 "map"
    ⟨none, some 1⟩ (List.mem_singleton.mpr rfl) rfl
  exact ⟨List.mem_singleton.mpr rfl, h.1⟩

/-- C5: with a resolved frame rate of 0 — in particular the value the
frame-rate resolver returns when ffprobe reports a zero denominator — every
surviving frame is stamped (0, 0). The guard `if fps > 0` selects the constant
branch, so the division by the frame rate is never taken: no division by zero
occurs. -/
theorem C5_zero_rate (td : TransformsData) (fid : String) (r : RunOutput)
    (h : runMain td 0 fid = Except.ok r) :
    (∀ num : ℤ, get_video_fps num 0 = 0) ∧
    ∀ p ∈ r.poses, p.stamp.sec = 0 ∧ p.stamp.nanosec = 0 := by
  refine ⟨fun num => by simp [get_video_fps], fun p hp => ?_⟩
  rcases mem_poses_inv h hp with ⟨fr, _, hpf⟩
  rcases processFrame_inv hpf with ⟨s, n, m, _, _, _, hst⟩
  rw [hst, timestampOf_zero_fps]
  exact ⟨rfl, rfl⟩

/-- Witness for C5: a single-frame run at frame rate 0. -/
theorem C5_witness :
    runMain ⟨some [idFrame "images/frame_0007.png"]⟩ 0 "map" =
      Except.ok ⟨[idPose ⟨0, 0⟩ "map"], 0, false, true, 0⟩ ∧
    ((∀ num : ℤ, get_video_fps num 0 = 0) ∧
      ∀ p ∈ (⟨[idPose ⟨0, 0⟩ "map"], 0, false, true, 0⟩ : RunOutput).poses,
        p.stamp.sec = 0 ∧ p.stamp.nanosec = 0) := by
  have h := runMain_single "images/frame_0007.png" 7 0 "map" (by decide)
  rw [timestampOf_zero_fps] at h
  exact ⟨h, C5_zero_rate _ "map" _ h⟩

/-- C8: the axis-convention constant is orthogonal with zero translation
column; applied (by left multiplication) to the identity it returns itself;
and its rotation block sends the source basis vectors e1, e2, e3 (right, down,
forward) to -e2, -e3, +e1 respectively. -/
theorem C8_axis_map (i : Fin 3) :
    CV_TO_ROS_FRAME * CV_TO_ROS_FRAME.transpose = 1 ∧
    CV_TO_ROS_FRAME i.castSucc 3 = 0 ∧
    CV_TO_ROS_FRAME * 1 = CV_TO_ROS_FRAME ∧
    (rotBlock CV_TO_ROS_FRAME).mulVec ![1, 0, 0] = ![0, -1, 0] ∧
    (rotBlock CV_TO_ROS_FRAME).mulVec ![0, 1, 0] = ![0, 0, -1] ∧
    (rotBlock CV_TO_ROS_FRAME).mulVec ![0, 0, 1] = ![1, 0, 0] := by
  refine ⟨?_, ?_, mul_one _, ?_, ?_, ?_⟩
  · ext a b
    fin_cases a <;> fin_cases b <;>
      norm_num [Matrix.mul_apply, Fin.sum_univ_four, Matrix.transpose_apply, CV_TO_ROS_FRAME,
        Matrix.one_apply, Fin.ext_iff, Matrix.vecHead, Matrix.vecTail]
  · have := congrFun CV_pos_col i
    simpa using this
  · funext a
    fin_cases a <;>
      norm_num [rotBlock_CV, Matrix.mulVec, Matrix.dotProduct, Fin.sum_univ_three,
        Matrix.vecHead, Matrix.vecTail]
  · funext a
    fin_cases a <;>
      norm_num [rotBlock_CV, Matrix.mulVec, Matrix.dotProduct, Fin.sum_univ_three,
        Matrix.vecHead, Matrix.vecTail]
  · funext a
    fin_cases a <;>
      norm_num [rotBlock_CV, Matrix.mulVec, Matrix.dotProduct, Fin.sum_univ_three,
        Matrix.vecHead, Matrix.vecTail]

/-- C2 (counterexample): the claim includes ordinal 0, but the frame
`images/frame_0000.png` at frame rate 30 is emitted with whole-seconds
`sec = -1` (elapsed = (0 - 1)/30 = -1/30, and `divmod` floors), violating
`sec ≥ 0`. -/
theorem C2_counterexample :
    (runMain ⟨some [idFrame "images/frame_0000.png"]⟩ 30 "map").map
        (fun r => r.poses.map (fun p => (p.stamp.sec, p.stamp.nanosec)))
      = Except.ok [(-1, 966666666)] ∧ ¬ (0 : ℤ) ≤ -1 := by
  constructor
  · rw [runMain_single "images/frame_0000.png" 0 30 "map" (by decide)]
    have ht : timestampOf 0 30 = ⟨-1, 966666666⟩ := by
      norm_num [timestampOf, Stamp.mk.injEq]
    simp [Except.map, ht, idPose]
  · decide

/-- C2 (amended): for every emitted pose the nanosecond field is an integer in
`[0, 1e9)`; the whole-seconds field is non-negative provided every extractable
ordinal in the input is at least 1 (the original claim also included
ordinal 0, for which `sec = -1` at a positive frame rate). -/
theorem C2_stamp_ranges (td : TransformsData) (fps : ℚ) (fid : String) (r : RunOutput)
    (h : runMain td fps fid = Except.ok r) (p : StampedPose) (hp : p ∈ r.poses) :
    (0 ≤ p.stamp.nanosec ∧ p.stamp.nanosec < 1000000000) ∧
    ((∀ f ∈ td.frames.getD [], ∀ s, f.file_path = some s →
        ∀ n, extract_frame_number s = some n → 1 ≤ n) →
      0 ≤ p.stamp.sec) := by
  rcases mem_poses_inv h hp with ⟨fr, hfr, hpf⟩
  rcases processFrame_inv hpf with ⟨s, n, m, hfp, hn, hm, hst⟩
  rw [hst]
  exact ⟨timestampOf_nanosec_bounds n fps,
    fun hord => timestampOf_sec_nonneg n fps (hord fr hfr s hfp n hn)⟩

/-- Witness for C2: the single-frame run on `images/frame_0001.png` at rate
30 emits one pose with stamp (0, 0), whose fields satisfy the amended
ranges. -/
theorem C2_witness :
    runMain ⟨some [idFrame "images/frame_0001.png"]⟩ 30 "map" =
      Except.ok ⟨[idPose ⟨0, 0⟩ "map"], 0, false, true, 0⟩ ∧
    idPose ⟨0, 0⟩ "map" ∈ (⟨[idPose ⟨0, 0⟩ "map"], 0, false, true, 0⟩ : RunOutput).poses ∧
    ((0 ≤ (idPose ⟨0, 0⟩ "map").stamp.nanosec ∧
        (idPose ⟨0, 0⟩ "map").stamp.nanosec < 1000000000) ∧
      ((∀ f ∈ (⟨some [idFrame "images/frame_0001.png"]⟩ : TransformsData).frames.getD [],
          ∀ s, f.file_path = some s → ∀ n, extract_frame_number s = some n → 1 ≤ n) →
        0 ≤ (idPose ⟨0, 0⟩ "map").stamp.sec)) := by
  have ht : timestampOf 1 30 = ⟨0, 0⟩ := by norm_num [timestampOf, Stamp.mk.injEq]
  have h := runMain_single "images/frame_0001.png" 1 30 "map" (by decide)
  rw [ht] at h
  have hp : idPose ⟨0, 0⟩ "map" ∈
      (⟨[idPose ⟨0, 0⟩ "map"], 0, false, true, 0⟩ : RunOutput).poses :=
    List.mem_singleton.mpr rfl
  exact ⟨h, hp, C2_stamp_ranges _ 30 "map" _ h _ hp⟩

/-- C3: for a surviving frame with ordinal `n` at frame rate `F > 0`, the
emitted stamp is the split of `elapsed = (n - 1)/F`: the seconds field is the
unique integer with `sec ≤ elapsed < sec + 1` (so the remainder lies in
`[0, 1)`), and the nanoseconds field is `⌊remainder * 1e9⌋`; elapsed time is
computed from `n - 1`, i.e. ordinals are treated as 1-indexed. -/
theorem C3_timestamp_split (fps : ℚ) (hfps : 0 < fps) (fid : String) (fr : Frame)
    (s : String) (n : ℕ) (hs : fr.file_path = some s)
    (hn : extract_frame_number s = some n)
    (p : StampedPose) (hp : processFrame fps fid fr = some p) :
    ((p.stamp.sec : ℚ) ≤ ((n : ℚ) - 1) / fps ∧
      ((n : ℚ) - 1) / fps < (p.stamp.sec : ℚ) + 1) ∧
    p.stamp.nanosec = ⌊(((n : ℚ) - 1) / fps - (p.stamp.sec : ℚ)) * 1000000000⌋ := by
  obtain ⟨s2, n2, m, hs2, hn2, hm, hst⟩ := processFrame_inv hp
  rw [hs, Option.some.injEq] at hs2
  subst hs2
  rw [hn, Option.some.injEq] at hn2
  subst hn2
  rw [hst]
  unfold timestampOf
  rw [if_pos hfps]
  exact ⟨⟨Int.floor_le _, Int.lt_floor_add_one _⟩, rfl⟩

/-- Witness for C3: frame ordinal 2 at rate 30 gets sec = 0,
nanosec = 33333333 = ⌊(1/30) * 1e9⌋. -/
theorem C3_witness :
    (0 : ℚ) < 30 ∧
    extract_frame_number "images/frame_0002.png" = some 2 ∧
    processFrame 30 "map" (idFrame "images/frame_0002.png") =
      some (idPose ⟨0, 33333333⟩ "map") ∧
    ((((idPose ⟨0, 33333333⟩ "map").stamp.sec : ℚ) ≤ ((2 : ℚ) - 1) / 30 ∧
        ((2 : ℚ) - 1) / 30 < ((idPose ⟨0, 33333333⟩ "map").stamp.sec : ℚ) + 1) ∧
      (idPose ⟨0, 33333333⟩ "map").stamp.nanosec =
        ⌊(((2 : ℚ) - 1) / 30 - ((idPose ⟨0, 33333333⟩ "map").stamp.sec : ℚ)) *
          1000000000⌋) := by
  have hn : extract_frame_number "images/frame_0002.png" = some 2 := by decide
  have ht : timestampOf 2 30 = ⟨0, 33333333⟩ := by norm_num [timestampOf, Stamp.mk.injEq]
  have hp : processFrame 30 "map" (idFrame "images/frame_0002.png") =
      some (idPose ⟨0, 33333333⟩ "map") := by
    rw [processFrame_idm 30 "map" _ 2 hn, ht]
  exact ⟨by norm_num, hn, hp,
    C3_timestamp_split 30 (by norm_num) "map" _ _ 2 rfl hn _ hp⟩

/-- C4: the emitted pose sequence follows the lexicographic order of the raw
`file_path` strings of the source frames: pairing each emitted pose with its
source path, consecutive entries have non-decreasing paths, and dropping the
paths recovers exactly the run's pose list. -/
theorem C4_lex_order (td : TransformsData) (fps : ℚ) (fid : String) (r : RunOutput)
    (h : runMain td fps fid = Except.ok r) :
    (emittedWithSources td fps fid).map Prod.snd = r.poses ∧
    List.Chain' (fun a b => a.1 ≤ b.1) (emittedWithSources td fps fid) := by
  constructor
  · rw [(runMain_ok_inv h).1]
    exact map_snd_emitted fps fid _
  · apply List.Pairwise.chain'
    apply List.pairwise_filterMap.mpr
    have hsorted : List.Sorted frameLe ((td.frames.getD []).insertionSort frameLe) :=
      List.sorted_insertionSort frameLe _
    refine hsorted.imp ?_
    intro a b hab x hx y hy
    rw [Option.mem_def, Option.map_eq_some'] at hx hy
    rcases hx with ⟨px, _, hpx⟩
    rcases hy with ⟨py, _, hpy⟩
    rw [← hpx, ← hpy]
    exact hab

/-- Witness for C4: the single-frame run, whose emission list is the one pair
(path, pose). -/
theorem C4_witness :
    runMain ⟨some [idFrame "images/frame_0001.png"]⟩ 30 "map" =
      Except.ok ⟨[idPose ⟨0, 0⟩ "map"], 0, false, true, 0⟩ ∧
    ((emittedWithSources ⟨some [idFrame "images/frame_0001.png"]⟩ 30 "map").map Prod.snd =
        (⟨[idPose ⟨0, 0⟩ "map"], 0, false, true, 0⟩ : RunOutput).poses ∧
      List.Chain' (fun a b => a.1 ≤ b.1)
        (emittedWithSources ⟨some [idFrame "images/frame_0001.png"]⟩ 30 "map")) := by
  have ht : timestampOf 1 30 = ⟨0, 0⟩ := by norm_num [timestampOf, Stamp.mk.injEq]
  have h := runMain_single "images/frame_0001.png" 1 30 "map" (by decide)
  rw [ht] at h
  exact ⟨h, C4_lex_order _ 30 "map" _ h⟩

/-- C6: a frame list of N records in which exactly one record's identifier
lacks the `frame_<digits>` marker — every other record being processable —
yields a non-aborting run with exactly N - 1 output poses and one skip
diagnostic. -/
theorem C6_one_malformed (fps : ℚ) (fid : String) (u v : List Frame) (bad : Frame)
    (sbad : String)
    (hu : ∀ f ∈ u, (processFrame fps fid f).isSome = true)
    (hv : ∀ f ∈ v, (processFrame fps fid f).isSome = true)
    (hkeys : ((u ++ bad :: v).all (fun f => f.file_path.isSome)) = true)
    (hbadpath : bad.file_path = some sbad)
    (hbadmarker : extract_frame_number sbad = none) :
    runMain ⟨some (u ++ bad :: v)⟩ fps fid =
      Except.ok (buildOutput ((u ++ bad :: v).insertionSort frameLe) fps fid) ∧
    (buildOutput ((u ++ bad :: v).insertionSort frameLe) fps fid).poses.length
        = (u ++ bad :: v).length - 1 ∧
    (buildOutput ((u ++ bad :: v).insertionSort frameLe) fps fid).skipped = 1 := by
  have hbad : processFrame fps fid bad = none :=
    processFrame_badmarker fps fid bad sbad hbadpath hbadmarker
  have hcount :
      ((u ++ bad :: v).insertionSort frameLe).countP
          (fun f => (processFrame fps fid f).isSome)
        = u.length + v.length := by
    rw [(List.perm_insertionSort frameLe (u ++ bad :: v)).countP_eq]
    rw [List.countP_append, List.countP_cons]
    rw [List.countP_eq_length.mpr hu, List.countP_eq_length.mpr hv]
    simp [hbad]
  have hlenp :
      (buildOutput ((u ++ bad :: v).insertionSort frameLe) fps fid).poses.length
        = u.length + v.length := by
    rw [buildOutput_poses, List.length_filterMap_eq_countP, hcount]
  have hN : (u ++ bad :: v).length = u.length + v.length + 1 := by
    simp [List.length_append]
    omega
  refine ⟨runMain_of_keys hkeys, ?_, ?_⟩
  · rw [hlenp, hN]
    omega
  · rw [buildOutput_skipped, List.length_insertionSort,
      List.length_filterMap_eq_countP, hcount, hN]
    omega

/-- Witness for C6: N = 3 frames, the middle one `images/oops.png`
malformed, frame rate 30 — the run succeeds with 2 poses and 1 skip. -/
theorem C6_witness :
    (∀ f ∈ [idFrame "images/frame_0001.png"], (processFrame 30 "map" f).isSome = true) ∧
    (∀ f ∈ [idFrame "images/frame_0002.png"], (processFrame 30 "map" f).isSome = true) ∧
    extract_frame_number "images/oops.png" = none ∧
    (runMain ⟨some ([idFrame "images/frame_0001.png"] ++
        ⟨some "images/oops.png", some 1⟩ :: [idFrame "images/frame_0002.png"])⟩ 30 "map" =
      Except.ok (buildOutput (([idFrame "images/frame_0001.png"] ++
        ⟨some "images/oops.png", some 1⟩ ::
          [idFrame "images/frame_0002.png"]).insertionSort frameLe) 30 "map") ∧
    (buildOutput (([idFrame "images/frame_0001.png"] ++
        ⟨some "images/oops.png", some 1⟩ ::
          [idFrame "images/frame_0002.png"]).insertionSort frameLe) 30 "map").poses.length
        = ([idFrame "images/frame_0001.png"] ++
            ⟨some "images/oops.png", some 1⟩ ::
              [idFrame "images/frame_0002.png"]).length - 1 ∧
    (buildOutput (([idFrame "images/frame_0001.png"] ++
        ⟨some "images/oops.png", some 1⟩ ::
          [idFrame "images/frame_0002.png"]).insertionSort frameLe) 30 "map").skipped
        = 1) := by
  have h1 : ∀ f ∈ [idFrame "images/frame_0001.png"],
      (processFrame 30 "map" f).isSome = true := by
    intro f hf
    rw [List.mem_singleton] at hf
    subst hf
    rw [processFrame_idm 30 "map" _ 1 (by decide)]
    rfl
  have h2 : ∀ f ∈ [idFrame "images/frame_0002.png"],
      (processFrame 30 "map" f).isSome = true := by
    intro f hf
    rw [List.mem_singleton] at hf
    subst hf
    rw [processFrame_idm 30 "map" _ 2 (by decide)]
    rfl
  have hmal : extract_frame_number "images/oops.png" = none := by decide
  exact ⟨h1, h2, hmal,
    C6_one_malformed 30 "map" _ _ _ "images/oops.png" h1 h2 rfl rfl hmal⟩

/-- C1 (counterexample): on the frame `images/frame_0001.png` with identity
matrix at frame rate 30 the emitted orientation is not the identity
quaternion (0, 0, 0, 1): the axis-convention rotation is a 120-degree
rotation, whose scipy quaternion is (1/2, -1/2, 1/2, -1/2). -/
theorem C1_counterexample :
    ¬ ((runMain ⟨some [idFrame "images/frame_0001.png"]⟩ 30 "map").map
        (fun r => r.poses.map (fun p =>
          ((p.stamp.sec, p.stamp.nanosec),
           (p.position 0, p.position 1, p.position 2),
           (quatN p 0, quatN p 1, quatN p 2, quatN p 3)))) =
      Except.ok [((0, 0), (0, 0, 0), (0, 0, 0, 1))]) := by
  have ht : timestampOf 1 30 = ⟨0, 0⟩ := by norm_num [timestampOf, Stamp.mk.injEq]
  have h := runMain_single "images/frame_0001.png" 1 30 "map" (by decide)
  rw [ht] at h
  intro hcontra
  rw [h] at hcontra
  have hq : ∀ i, quatN (idPose ⟨0, 0⟩ "map") i = ![1/2, -1/2, 1/2, -1/2] i :=
    fun i => congrFun (quatN_idPose ⟨0, 0⟩ "map") i
  simp [Except.map, hq, idPose_stamp, idPose_position] at hcontra

/-- C1 (amended): on that input the emitted pose has stamp (0, 0) and
position (0, 0, 0) as the claim states, but its orientation is the unit
quaternion (1/2, -1/2, 1/2, -1/2) — the axis-convention rotation itself —
not the identity quaternion. -/
theorem C1_identity_frame :
    (runMain ⟨some [idFrame "images/frame_0001.png"]⟩ 30 "map").map
        (fun r => r.poses.map (fun p =>
          ((p.stamp.sec, p.stamp.nanosec),
           (p.position 0, p.position 1, p.position 2),
           (quatN p 0, quatN p 1, quatN p 2, quatN p 3)))) =
      Except.ok [((0, 0), (0, 0, 0), (1/2, -1/2, 1/2, -1/2))] := by
  have ht : timestampOf 1 30 = ⟨0, 0⟩ := by norm_num [timestampOf, Stamp.mk.injEq]
  have h := runMain_single "images/frame_0001.png" 1 30 "map" (by decide)
  rw [ht] at h
  rw [h]
  have hq : ∀ i, quatN (idPose ⟨0, 0⟩ "map") i = ![1/2, -1/2, 1/2, -1/2] i :=
    fun i => congrFun (quatN_idPose ⟨0, 0⟩ "map") i
  simp [Except.map, hq, idPose_stamp, idPose_position]

end ExtractPoses
